import Mathlib

/-!
Verification of the aggregation / tabulation / rendering core of the
aws-sample repository (finops cost report and Security Hub dashboard),
as a shallow embedding in Lean.  Python dictionaries become
insertion-ordered association lists, floating point amounts become
rationals, and uncaught Python exceptions become the `Except.error`
constructor carrying the state at the moment the exception is raised.
-/

namespace AwsSample

/-! ### Python dict model (insertion-ordered association list) -/

/-- Python `d.get(k)` on an insertion-ordered association list. -/
def dget {α : Type} : List (String × α) → String → Option α
  | [], _ => none
  | (k', v) :: rest, k => if k' = k then some v else dget rest k

/-- Python `d.get(k, v0)`. -/
def dgetD {α : Type} (d : List (String × α)) (k : String) (v0 : α) : α :=
  (dget d k).getD v0

/-- Python `d.keys()` (in insertion order). -/
def dkeys {α : Type} (d : List (String × α)) : List String :=
  d.map Prod.fst

/-- `defaultdict(float)` accumulation `d[k] += v`: add into an existing key,
or append the key with value `v` (default 0 plus `v`). -/
def addAmount : List (String × ℚ) → String → ℚ → List (String × ℚ)
  | [], k, v => [(k, v)]
  | (k', v') :: rest, k, v =>
    if k' = k then (k', v' + v) :: rest else (k', v') :: addAmount rest k v

/-- Per-service data: period key → accumulated amount. -/
abbrev ServiceData := List (String × ℚ)

/-- Per-profile slice of `self.cost_data`: service name → per-period dict. -/
abbrev ProfileData := List (String × ServiceData)

/-- Whole `self.cost_data`: profile → per-profile dict. -/
abbrev CostData := List (String × ProfileData)

/-- `self.cost_data[profile][service][period] += amount` restricted to one
profile's slice (the source mutates exactly this sub-dictionary). -/
def addCost : ProfileData → String → String → ℚ → ProfileData
  | [], s, p, v => [(s, [(p, v)])]
  | (s', m) :: rest, s, p, v =>
    if s' = s then (s', addAmount m p v) :: rest else (s', m) :: addCost rest s p v

/-- Python `set` add on a duplicate-free list model of a set. -/
def setInsert (l : List String) (x : String) : List String :=
  if x ∈ l then l else l ++ [x]

/-- Python `set.update` with an iterable. -/
def setUnion (l : List String) (xs : List String) : List String :=
  xs.foldl setInsert l

/-! ### Dates and the Period Generator (`_generate_periods`) -/

/-- A calendar date as handled by `datetime`; compared lexicographically. -/
structure Date where
  y : Nat
  m : Nat
  d : Nat
deriving DecidableEq, Repr

/-- Python `datetime` comparison (lexicographic on year, month, day). -/
def dateLtB (a b : Date) : Bool :=
  a.y < b.y || (a.y = b.y && (a.m < b.m || (a.m = b.m && a.d < b.d)))

/-- Days in a month with the Gregorian leap rule, as used by
`datetime + timedelta(days=1)`. -/
def daysInMonth (y m : Nat) : Nat :=
  if m = 2 then (if y % 4 = 0 ∧ (y % 100 ≠ 0 ∨ y % 400 = 0) then 29 else 28)
  else if m = 4 ∨ m = 6 ∨ m = 9 ∨ m = 11 then 30
  else 31

/-- `current + timedelta(days=1)`. -/
def nextDay (dt : Date) : Date :=
  if dt.d < daysInMonth dt.y dt.m then ⟨dt.y, dt.m, dt.d + 1⟩
  else if dt.m < 12 then ⟨dt.y, dt.m + 1, 1⟩
  else ⟨dt.y + 1, 1, 1⟩

/-- The month step of the monthly branch: `replace(month=month+1)` with
December rolling over to January of the next year. -/
def nextMonth (dt : Date) : Date :=
  if dt.m = 12 then ⟨dt.y + 1, 1, dt.d⟩ else ⟨dt.y, dt.m + 1, dt.d⟩

/-- Zero-padded two-digit field of `strftime` (`%m`, `%d`). -/
def pad2 (n : Nat) : String :=
  if n < 10 then "0" ++ toString n else toString n

/-- Zero-padded four-digit year field of `strftime` (`%Y`). -/
def pad4 (n : Nat) : String :=
  if n < 10 then "000" ++ toString n
  else if n < 100 then "00" ++ toString n
  else if n < 1000 then "0" ++ toString n
  else toString n

/-- `strftime("%Y-%m")`. -/
def fmtMonth (dt : Date) : String :=
  pad4 dt.y ++ "-" ++ pad2 dt.m

/-- `strftime("%Y-%m-%d")`. -/
def fmtDay (dt : Date) : String :=
  fmtMonth dt ++ "-" ++ pad2 dt.d

/-- The daily `while current < end` loop, made total with a fuel argument
that is always large enough for the loop's actual trip count. -/
def genDaily : Nat → Date → Date → List String
  | 0, _, _ => []
  | fuel + 1, cur, e =>
    if dateLtB cur e then fmtDay cur :: genDaily fuel (nextDay cur) e else []

/-- The monthly `while current < end` loop, fueled likewise. -/
def genMonthly : Nat → Date → Date → List String
  | 0, _, _ => []
  | fuel + 1, cur, e =>
    if dateLtB cur e then fmtMonth cur :: genMonthly fuel (nextMonth cur) e else []

inductive Granularity
  | daily
  | monthly
deriving DecidableEq, Repr

/-- `_generate_periods`: the monthly branch first snaps the start to the
first of its month (`start.replace(day=1)`). -/
def generate_periods (start e : Date) (g : Granularity) : List String :=
  match g with
  | .monthly => genMonthly (12 * (e.y + 2)) ⟨start.y, start.m, 1⟩ e
  | .daily => genDaily (366 * (e.y + 2)) start e

/-! ### Cost report configuration -/

inductive SortBy
  | name
  | total_cost
deriving DecidableEq, Repr

/-- The recognized configuration options of the cost reporter (validated
before any fetch in `_validate_config`). -/
structure Config where
  profiles : List String
  services : List String
  sort_by : SortBy
  period : Granularity
  exclude_taxes : Bool
  exclude_support : Bool
deriving DecidableEq, Repr

/-! ### The Aggregator (`_process_cost_data`) -/

/-- One element of a `ResultsByTime` entry's `Groups` list.  `keys` is the
`Keys` list; `amount` is the parse of `Metrics.UnblendedCost.Amount` —
`none` models a missing or unparsable amount, on which the source's
`float(...)` raises an uncaught exception. -/
structure Group where
  keys : List String
  amount : Option ℚ
deriving DecidableEq, Repr

/-- One `ResultsByTime` entry.  `start?` is `TimePeriod.Start`; `none`
models the field being absent (an uncaught `KeyError` in the source). -/
structure TimePeriodEntry where
  start? : Option String
  groups : List Group
deriving DecidableEq, Repr

/-- `group["Keys"][0] if group["Keys"] else "Unknown"`. -/
def service_name_of (g : Group) : String :=
  match g.keys with
  | [] => "Unknown"
  | k :: _ => k

/-- Python `s.startswith(pre)` over code points. -/
def str_startswith (s pre : String) : Bool :=
  pre.data.isPrefixOf s.data

/-- The two sequential exclusion checks of `_process_cost_data`. -/
def excluded_service (cfg : Config) (s : String) : Bool :=
  (str_startswith s "AWS Support" && cfg.exclude_support) || (s == "Tax" && cfg.exclude_taxes)

/-- `show_all_services = len(target_services) == 0`. -/
def show_all_services (cfg : Config) : Bool :=
  cfg.services.length == 0

/-- `period_key = period_start[:7] if monthly else period_start`. -/
def period_key (cfg : Config) (start : String) : String :=
  if cfg.period = .monthly then start.take 7 else start

/-- The inner `for group in groups` loop of `_process_cost_data`, threading
the profile's cost dict together with the `other_cost` and `period_total`
locals.  `.error` is the uncaught exception raised by `float(...)` on an
unparsable amount; it carries the dict state already mutated (the pending
`other_cost` local is lost). -/
def process_groups (cfg : Config) (pkey : String) :
    List Group → ProfileData × ℚ × ℚ → Except ProfileData (ProfileData × ℚ × ℚ)
  | [], st => .ok st
  | g :: gs, (d, oc, pt) =>
    match g.amount with
    | none => .error d
    | some c =>
      let s := service_name_of g
      if excluded_service cfg s then
        process_groups cfg pkey gs (d, oc, pt)
      else if show_all_services cfg || cfg.services.contains s then
        process_groups cfg pkey gs (addCost d s pkey c, oc, pt + c)
      else
        process_groups cfg pkey gs (d, oc + c, pt + c)

/-- One iteration of the outer `for time_period in raw_data` loop: resolve
the period key, fold the groups, then flush a positive `other_cost` into
the synthetic "Other" bucket unless every service is shown. -/
def process_entry (cfg : Config) (d : ProfileData) (e : TimePeriodEntry) :
    Except ProfileData ProfileData :=
  match e.start? with
  | none => .error d
  | some ps =>
    match process_groups cfg (period_key cfg ps) e.groups (d, 0, 0) with
    | .error d' => .error d'
    | .ok (d', oc, _) =>
      .ok (if oc > 0 && !show_all_services cfg then addCost d' "Other" (period_key cfg ps) oc else d')

/-- `_process_cost_data` for one profile: fold the fetched `ResultsByTime`
entries into that profile's slice of `self.cost_data`.  An exception from
any record aborts the whole call, keeping earlier mutations. -/
def process_cost_data (cfg : Config) : List TimePeriodEntry → ProfileData → Except ProfileData ProfileData
  | [], d => .ok d
  | e :: es, d =>
    match process_entry cfg d e with
    | .error d' => .error d'
    | .ok d' => process_cost_data cfg es d'

/-! ### Table cells read from the aggregated data -/

/-- `self.cost_data[profile].get(service, {}).get(period, 0.0)`. -/
def service_period_cost (pd : ProfileData) (s p : String) : ℚ :=
  dgetD (dgetD pd s []) p 0

/-- One period cell of the per-account table's Total row:
`for service in self.cost_data[profile]: period_total += ...get(period, 0.0)`. -/
def period_total_cell (pd : ProfileData) (p : String) : ℚ :=
  (pd.map (fun sm => dgetD sm.2 p 0)).sum

/-- The trailing Total cell of the Total row: the period totals summed over
`self.all_periods`. -/
def grand_total_cell (pd : ProfileData) (periods : List String) : ℚ :=
  (periods.map (period_total_cell pd)).sum

/-! ### Raw-record sums (the specification side of the reconciliation) -/

/-- The parsed amount of a group, `0` when it does not parse. -/
def group_amount (g : Group) : ℚ :=
  (g.amount).getD 0

/-- The sum of all raw amounts inside one `ResultsByTime` entry. -/
def entry_sum (e : TimePeriodEntry) : ℚ :=
  (e.groups.map group_amount).sum

/-- The sum of raw amounts over all entries resolving to period `p`. -/
def raw_sum_at (cfg : Config) (entries : List TimePeriodEntry) (p : String) : ℚ :=
  (entries.map (fun e => if e.start?.map (period_key cfg) = some p then entry_sum e else 0)).sum

/-- The sum of every raw amount in the fetched record set. -/
def raw_sum (entries : List TimePeriodEntry) : ℚ :=
  (entries.map entry_sum).sum

/-! ### Sort Policy (`_sort_services_by_config`, `_sort_profiles_by_config`) -/

/-- The summed total used as the `total_cost` sort key for a service:
scoped to one profile when one is given, otherwise summed across all
configured profiles (matching the two branches of the source). -/
def service_total_for (data : CostData) (periods : List String) (cfg : Config)
    (profile? : Option String) (s : String) : ℚ :=
  match profile? with
  | some profile => (periods.map (fun p => service_period_cost (dgetD data profile []) s p)).sum
  | none =>
    (cfg.profiles.map (fun prof =>
      (periods.map (fun p => service_period_cost (dgetD data prof []) s p)).sum)).sum

/-- `_sort_services_by_config`: `sorted(services_list)` under the `name`
policy; under `total_cost`, build `(service, total)` pairs and stable-sort
them by total, descending (Python's stable `sort` with `reverse=True`),
then project the names back out. -/
def sort_services_by_config (cfg : Config) (data : CostData) (periods : List String)
    (services_list : List String) (profile? : Option String) : List String :=
  match cfg.sort_by with
  | .name => List.insertionSort (· ≤ ·) services_list
  | .total_cost =>
    let service_totals := services_list.map (fun s => (s, service_total_for data periods cfg profile? s))
    (List.insertionSort (fun a b : String × ℚ => b.2 ≤ a.2) service_totals).map Prod.fst

/-- The summed total used as the `total_cost` sort key for a profile:
`for service in self.cost_data.get(profile, {})`, summed over all periods. -/
def profile_total_for (data : CostData) (periods : List String) (profile : String) : ℚ :=
  ((dgetD data profile []).map (fun sm => (periods.map (fun p => dgetD sm.2 p 0)).sum)).sum

/-- `_sort_profiles_by_config`. -/
def sort_profiles_by_config (cfg : Config) (data : CostData) (periods : List String)
    (profiles_list : List String) : List String :=
  match cfg.sort_by with
  | .name => List.insertionSort (· ≤ ·) profiles_list
  | .total_cost =>
    let profile_totals := profiles_list.map (fun p => (p, profile_total_for data periods p))
    (List.insertionSort (fun a b : String × ℚ => b.2 ≤ a.2) profile_totals).map Prod.fst

/-! ### Table Builder row lists -/

/-- `_should_include_service`: with an empty configured list every service
except "Other" is shown, otherwise only the configured ones. -/
def should_include_service (cfg : Config) (service : String) : Bool :=
  if cfg.services.length = 0 then service != "Other" else cfg.services.contains service

/-- The `all_services` set of `_generate_service_table_for_profile`:
`set(config services)` (skipped when the list is empty) updated with the
keys of this profile's cost dict when present. -/
def all_services_for_profile (cfg : Config) (data : CostData) (profile : String) : List String :=
  let base := if cfg.services.length = 0 then [] else setUnion [] cfg.services
  match dget data profile with
  | some pd => setUnion base (dkeys pd)
  | none => base

/-- The conditional "Other" row appended after the sorted service rows. -/
def other_row (cfg : Config) (all_services : List String) : List String :=
  if "Other" ∈ all_services ∧ cfg.services.length > 0 then ["Other"] else []

/-- The ordered row labels of the per-account service table. -/
def service_table_rows_for_profile (cfg : Config) (data : CostData) (periods : List String)
    (profile : String) : List String :=
  let all := all_services_for_profile cfg data profile
  let filtered := all.filter (should_include_service cfg)
  sort_services_by_config cfg data periods filtered (some profile) ++ other_row cfg all

/-- The `all_services` set of `_generate_service_total_table` and
`_generate_service_total_charts`: the union over every profile present in
`self.cost_data`. -/
def all_services_global (cfg : Config) (data : CostData) : List String :=
  let base := if cfg.services.length = 0 then [] else setUnion [] cfg.services
  data.foldl (fun acc pd => setUnion acc (dkeys pd.2)) base

/-- The ordered row labels of the per-service (across accounts) table. -/
def service_total_table_rows (cfg : Config) (data : CostData) (periods : List String) : List String :=
  let all := all_services_global cfg data
  let filtered := all.filter (should_include_service cfg)
  sort_services_by_config cfg data periods filtered none ++ other_row cfg all

/-- The ordered row labels of the per-account totals table. -/
def account_total_table_rows (cfg : Config) (data : CostData) (periods : List String) : List String :=
  sort_profiles_by_config cfg data periods cfg.profiles

/-! ### Chart Data Builder entity list (`_generate_service_total_charts`) -/

/-- The `services_list` driving both chart datasets of the service-total
charts: the filtered `sorted(all_services)` (sorted by name, regardless of
the configured sort policy), then the conditional "Other". -/
def service_total_chart_services (cfg : Config) (data : CostData) : List String :=
  let all := all_services_global cfg data
  (List.insertionSort (· ≤ ·) all).filter (should_include_service cfg) ++ other_row cfg all

/-! ### Chart colors (`_generate_chart_colors`, cost report) -/

/-- The fixed 30-entry palette of the cost report. -/
def chart_palette : List String :=
  ["#FF6384", "#36A2EB", "#FFCE56", "#4BC0C0", "#9966FF",
   "#FF9F40", "#FF6B6B", "#4ECDC4", "#45B7D1", "#96CEB4",
   "#FFEAA7", "#DDA0DD", "#98D8C8", "#F7DC6F", "#BB8FCE",
   "#85C1E9", "#F8C471", "#82E0AA", "#F1948A", "#85929E",
   "#5DADE2", "#58D68D", "#F4D03F", "#AF7AC5", "#5499C7",
   "#52BE80", "#F39C12", "#E74C3C", "#8E44AD", "#3498DB"]

/-- Python `colors * k`. -/
def pyListMul (l : List String) (k : Nat) : List String :=
  (List.replicate k l).flatten

/-- `_generate_chart_colors` of the cost report:
`colors[:count] if count <= len(colors) else colors * (count // len(colors) + 1)`. -/
def generate_chart_colors (count : Nat) : List String :=
  if count ≤ chart_palette.length then chart_palette.take count
  else pyListMul chart_palette (count / chart_palette.length + 1)

/-! ### Security Hub dashboard (`securityhub_dashboard.py`) -/

namespace SecurityHub

/-- A raw Security Hub finding as consumed by `_process_findings_data`.
`severityLabel` is `finding.get("Severity", {}).get("Label")` (absent →
`none`); `region?` is `finding["Region"]` (`none` models a `KeyError`);
`id?` is `finding.get("Id")` (`none` makes `None.split(...)` raise). -/
structure Finding where
  severityLabel : Option String
  region? : Option String
  id? : Option String
  title? : Option String
  workflowState : Option String
  productName : Option String
deriving DecidableEq, Repr

/-- One entry of `self.detailed_findings`. -/
structure DetailedFinding where
  account : String
  region : String
  title : String
  severity : Option String
  workflow_state : Option String
  product_name : String
  id : String
deriving DecidableEq, Repr

/-- The dashboard's mutable state: the nested `defaultdict` counter
(profile → region → severity label → count, the trailing literal "count"
key elided), the detailed findings list, and the `self.regions` set. -/
structure DashboardState where
  findings_data : String → String → Option String → Nat
  detailed_findings : List DetailedFinding
  regions : List String

/-- The empty `__init__` state. -/
def init_state : DashboardState :=
  ⟨fun _ _ _ => 0, [], []⟩

/-- `self.severity_order`. -/
def severity_order : List String :=
  ["CRITICAL", "HIGH", "MEDIUM", "LOW"]

/-- `self.findings_data[profile][region][severity]["count"] += 1`. -/
def bump (f : String → String → Option String → Nat) (p r : String) (s : Option String) :
    String → String → Option String → Nat :=
  fun p' r' s' => if p' = p ∧ r' = r ∧ s' = s then f p' r' s' + 1 else f p' r' s'

/-- One iteration of the `for finding in findings` loop.  INFORMATIONAL
findings are skipped before anything is recorded; a missing `Region` or
`Id` raises (`.error`), keeping the mutations made before the raise. -/
def process_finding (profile : String) (st : DashboardState) (f : Finding) :
    Except DashboardState DashboardState :=
  if f.severityLabel = some "INFORMATIONAL" then .ok st
  else
    match f.region? with
    | none => .error st
    | some region =>
      let regions' := if region ∈ st.regions then st.regions else st.regions ++ [region]
      match f.id? with
      | none => .error { st with regions := regions' }
      | some rawId =>
        let idPart := ((rawId.splitOn "/").getLastD "")
        let row : DetailedFinding :=
          { account := profile, region := region, title := (f.title?).getD "N/A",
            severity := f.severityLabel, workflow_state := f.workflowState,
            product_name := (f.productName).getD "N/A", id := idPart }
        .ok { findings_data := bump st.findings_data profile region f.severityLabel,
              detailed_findings := st.detailed_findings ++ [row],
              regions := regions' }

/-- `_process_findings_data` over one fetched findings list. -/
def process_findings_data (profile : String) :
    List Finding → DashboardState → Except DashboardState DashboardState
  | [], st => .ok st
  | f :: fs, st =>
    match process_finding profile st f with
    | .error st' => .error st'
    | .ok st' => process_findings_data profile fs st'

/-- The per-profile fetch loop of `generate_dashboard`: each configured
profile's findings are folded in turn; an uncaught per-record exception
aborts the whole run. -/
def run_dashboard (fetch : String → List Finding) :
    List String → DashboardState → Except DashboardState DashboardState
  | [], st => .ok st
  | p :: ps, st =>
    match process_findings_data p (fetch p) st with
    | .error st' => .error st'
    | .ok st' => run_dashboard fetch ps st'

/-- The triple sum producing the grand-total cell of the Global Security
Hub Summary table's Total row: severities (in `severity_order`) outermost,
then configured profiles, then every region ever seen. -/
def sum_counts (profiles regions : List String)
    (counts : String → String → Option String → Nat) : Nat :=
  (severity_order.map (fun sev =>
    (profiles.map (fun p => (regions.map (fun r => counts p r (some sev))).sum)).sum)).sum

/-- The grand-total cell of `_generate_global_summary_table`. -/
def global_summary_grand_total (profiles : List String) (st : DashboardState) : Nat :=
  sum_counts profiles st.regions st.findings_data

/-- `_generate_chart_colors` of the Security Hub dashboard: the five
severity colors (dict value order) plus at most ten extra colors. -/
def generate_chart_colors (count : Nat) : List String :=
  let colors := ["#DC3545", "#FD7E14", "#FFC107", "#20C997", "#6C757D"]
  let additional_colors := ["#FF6384", "#36A2EB", "#FFCE56", "#4BC0C0", "#9966FF",
                            "#FF9F40", "#FF6B6B", "#4ECDC4", "#45B7D1", "#96CEB4"]
  colors ++ additional_colors.take (count - colors.length)

/-- Well-formedness of one raw finding: a recognized severity label and the
fields whose absence would raise inside `_process_findings_data`. -/
def finding_wf (f : Finding) : Prop :=
  (∃ s, f.severityLabel = some s ∧ s ∈ severity_order ++ ["INFORMATIONAL"]) ∧
    f.region?.isSome ∧ f.id?.isSome

/-- The run invariant tying the nested counters to the detailed findings
list: regions are duplicate-free, counters vanish outside the recorded
regions, and the triple sum balances the detailed row count. -/
def dash_inv (profiles : List String) (st : DashboardState) : Prop :=
  st.regions.Nodup ∧
    (∀ p r s, r ∉ st.regions → st.findings_data p r s = 0) ∧
    sum_counts profiles st.regions st.findings_data = st.detailed_findings.length

end SecurityHub

/-! ## Theorems -/

/-! ### Period Generator -/

theorem genDaily_empty (n : Nat) (s e : Date) (h : dateLtB s e = false) :
    genDaily n s e = [] := by
  cases n with
  | zero => rfl
  | succ n => simp [genDaily, h]

theorem genMonthly_empty (n : Nat) (s e : Date) (h : dateLtB s e = false) :
    genMonthly n s e = [] := by
  cases n with
  | zero => rfl
  | succ n => simp [genMonthly, h]

theorem genMonthly_ne_nil (n : Nat) (s e : Date) (hn : n ≠ 0) (h : dateLtB s e = true) :
    genMonthly n s e ≠ [] := by
  cases n with
  | zero => exact absurd rfl hn
  | succ n => simp [genMonthly, h]

/-- C8: the three reference cases of the Period Generator hold as stated:
daily over an empty window is empty, daily 2024-01-01 → 2024-01-04 yields
the three days before the exclusive end, and monthly 2024-01-15 →
2024-03-01 yields January and February. -/
theorem C8_period_generator_reference_cases :
    generate_periods ⟨2024, 1, 1⟩ ⟨2024, 1, 1⟩ .daily = [] ∧
    generate_periods ⟨2024, 1, 1⟩ ⟨2024, 1, 4⟩ .daily = ["2024-01-01", "2024-01-02", "2024-01-03"] ∧
    generate_periods ⟨2024, 1, 15⟩ ⟨2024, 3, 1⟩ .monthly = ["2024-01", "2024-02"] := by
  refine ⟨by decide, by decide, by decide⟩

/-- C3 (counterexample): with monthly granularity, start 2024-01-15 and end
2024-01-10 we have start ≥ end, yet the generator emits the start month
instead of the empty sequence, because the monthly branch first snaps the
start back to the first of its month. -/
theorem C3_counterexample :
    dateLtB ⟨2024, 1, 15⟩ ⟨2024, 1, 10⟩ = false ∧
    generate_periods ⟨2024, 1, 15⟩ ⟨2024, 1, 10⟩ .monthly = ["2024-01"] := by
  refine ⟨by decide, by decide⟩

/-- C3 (amended): for every start, end: the daily generator returns the
empty sequence whenever start ≥ end; the monthly generator returns the
empty sequence whenever the first day of start's month is ≥ end, and a
non-empty sequence whenever that first-of-month is < end — which can
happen with start ≥ end when the start's day-of-month is greater than 1. -/
theorem C3_empty_behavior (s e : Date) :
    (dateLtB s e = false → generate_periods s e .daily = []) ∧
    (dateLtB ⟨s.y, s.m, 1⟩ e = false → generate_periods s e .monthly = []) ∧
    (dateLtB ⟨s.y, s.m, 1⟩ e = true → generate_periods s e .monthly ≠ []) := by
  refine ⟨fun h => ?_, fun h => ?_, fun h => ?_⟩
  · exact genDaily_empty _ s e h
  · exact genMonthly_empty _ _ e h
  · exact genMonthly_ne_nil _ _ e (by positivity) h

theorem C3_empty_behavior_witness :
    generate_periods ⟨2024, 5, 7⟩ ⟨2024, 5, 7⟩ .daily = [] ∧
    generate_periods ⟨2024, 5, 1⟩ ⟨2024, 4, 30⟩ .monthly = [] ∧
    generate_periods ⟨2024, 5, 7⟩ ⟨2024, 5, 2⟩ .monthly ≠ [] :=
  ⟨(C3_empty_behavior ⟨2024, 5, 7⟩ ⟨2024, 5, 7⟩).1 (by decide),
   (C3_empty_behavior ⟨2024, 5, 1⟩ ⟨2024, 4, 30⟩).2.1 (by decide),
   (C3_empty_behavior ⟨2024, 5, 7⟩ ⟨2024, 5, 2⟩).2.2 (by decide)⟩

/-! ### Chart colors -/

theorem flatten_replicate_length {α : Type} (l : List α) :
    ∀ k : Nat, ((List.replicate k l).flatten).length = k * l.length := by
  intro k
  induction k with
  | zero => simp
  | succ k ih =>
    rw [List.replicate_succ, List.flatten_cons, List.length_append, ih]
    ring

theorem flatten_replicate_getElem {α : Type} (l : List α) :
    ∀ (k i : Nat), i < k * l.length →
      ((List.replicate k l).flatten)[i]? = l[i % l.length]? := by
  intro k
  induction k with
  | zero => intro i h; omega
  | succ k ih =>
    intro i h
    rw [List.replicate_succ, List.flatten_cons]
    by_cases hi : i < l.length
    · rw [List.getElem?_append_left hi, Nat.mod_eq_of_lt hi]
    · push_neg at hi
      have hik : i - l.length < k * l.length := by
        have : (k + 1) * l.length = k * l.length + l.length := by ring
        omega
      rw [List.getElem?_append_right hi, ih (i - l.length) hik,
        Nat.mod_eq_sub_mod hi]

/-- C9 (counterexample): the Security Hub color generator hands out only
15 colors for 16 requested entities, so the claim that the generator
always returns at least n colors fails there (and the indexed access for
the 16th entity in `_generate_global_charts` would be out of bounds). -/
theorem C9_counterexample :
    (SecurityHub.generate_chart_colors 16).length = 15 ∧ ¬ (16 ≤ (SecurityHub.generate_chart_colors 16).length) := by
  refine ⟨by decide, by decide⟩

/-- C9 (amended): the cost-report color generator does return at least n
colors for every n, assigning the i-th entity the palette entry i mod 30
(deterministic cycling through the fixed palette); the Security Hub
generator guarantees at least n colors only for n ≤ 15. -/
theorem C9_chart_colors (n : Nat) :
    (n ≤ (generate_chart_colors n).length ∧
      ∀ i, i < n → (generate_chart_colors n)[i]? = chart_palette[i % chart_palette.length]?) ∧
    (n ≤ 15 → n ≤ (SecurityHub.generate_chart_colors n).length) := by
  have hlen : chart_palette.length = 30 := by decide
  constructor
  · rw [generate_chart_colors]
    by_cases h : n ≤ chart_palette.length
    · rw [if_pos h]
      constructor
      · rw [List.length_take]; omega
      · intro i hi
        rw [List.getElem?_take_of_lt hi, Nat.mod_eq_of_lt (by omega)]
    · rw [if_neg h]
      push_neg at h
      have hdm := Nat.div_add_mod n chart_palette.length
      have hmlt : n % chart_palette.length < chart_palette.length := Nat.mod_lt n (by omega)
      have hbound : n ≤ (n / chart_palette.length + 1) * chart_palette.length := by
        nlinarith [hdm, hmlt]
      constructor
      · rw [pyListMul, flatten_replicate_length]; exact hbound
      · intro i hi
        exact flatten_replicate_getElem chart_palette _ i (by omega)
  · intro h15
    rw [SecurityHub.generate_chart_colors]
    simp only [List.length_append, List.length_take, List.length_cons, List.length_nil]
    omega

theorem C9_chart_colors_witness :
    12 ≤ (generate_chart_colors 12).length ∧
    (generate_chart_colors 12)[5]? = chart_palette[5 % chart_palette.length]? ∧
    12 ≤ (SecurityHub.generate_chart_colors 12).length :=
  ⟨(C9_chart_colors 12).1.1, (C9_chart_colors 12).1.2 5 (by decide),
   (C9_chart_colors 12).2 (by decide)⟩

/-! ### Malformed records and the Aggregator -/

theorem process_groups_error_of_none (cfg : Config) (pkey : String) :
    ∀ (gs : List Group), (∃ g ∈ gs, g.amount = none) →
      ∀ st, ∃ d', process_groups cfg pkey gs st = .error d' := by
  intro gs
  induction gs with
  | nil => rintro ⟨g, hg, _⟩ _; exact absurd hg (List.not_mem_nil g)
  | cons g0 gs ih =>
    rintro ⟨g, hg, hga⟩ ⟨d, oc, pt⟩
    cases ha0 : g0.amount with
    | none => exact ⟨d, by simp [process_groups, ha0]⟩
    | some c =>
      have htail : g ∈ gs := by
        rcases List.mem_cons.mp hg with rfl | h
        · rw [hga] at ha0; cases ha0
        · exact h
      simp only [process_groups, ha0]
      split
      · exact ih ⟨g, htail, hga⟩ _
      · split
        · exact ih ⟨g, htail, hga⟩ _
        · exact ih ⟨g, htail, hga⟩ _

theorem process_entry_error_of_malformed (cfg : Config) (d : ProfileData)
    (e : TimePeriodEntry)
    (hbad : e.start? = none ∨ ∃ g ∈ e.groups, g.amount = none) :
    ∃ d', process_entry cfg d e = .error d' := by
  rcases hbad with hs | hg
  · exact ⟨d, by simp [process_entry, hs]⟩
  · cases hs : e.start? with
    | none => exact ⟨d, by simp [process_entry, hs]⟩
    | some ps =>
      obtain ⟨d', hd'⟩ := process_groups_error_of_none cfg (period_key cfg ps) e.groups hg (d, 0, 0)
      exact ⟨d', by simp only [process_entry, hs, hd']⟩

/-- C2 (counterexample): a stream of three records in which the middle one
carries an unparsable amount.  Aggregation does not skip the malformed
record in isolation: it aborts with only the first record aggregated,
whereas the same stream without the malformed record completes and also
aggregates the third record. -/
theorem C2_counterexample :
    process_cost_data ⟨["a"], [], .name, .daily, false, false⟩
        [⟨some "2024-01-01", [⟨["EC2"], some 10⟩]⟩,
         ⟨some "2024-01-02", [⟨["S3"], none⟩]⟩,
         ⟨some "2024-01-03", [⟨["EC2"], some 5⟩]⟩] []
      = .error [("EC2", [("2024-01-01", (10 : ℚ))])] ∧
    process_cost_data ⟨["a"], [], .name, .daily, false, false⟩
        [⟨some "2024-01-01", [⟨["EC2"], some 10⟩]⟩,
         ⟨some "2024-01-03", [⟨["EC2"], some 5⟩]⟩] []
      = .ok [("EC2", [("2024-01-01", (10 : ℚ)), ("2024-01-03", 5)])] :=
  ⟨rfl, rfl⟩

/-- C2 (amended): a malformed record (missing period field or unparsable
amount) is not skipped in isolation — the aggregation call aborts at the
first malformed record with an uncaught exception: every record before it
remains aggregated in the carried state, and every record after it is
never aggregated (the result does not depend on them at all). -/
theorem C2_malformed_record_aborts (cfg : Config) (es₁ es₂ : List TimePeriodEntry)
    (bad : TimePeriodEntry) (d : ProfileData)
    (hbad : bad.start? = none ∨ ∃ g ∈ bad.groups, g.amount = none) :
    (∃ d', process_cost_data cfg (es₁ ++ bad :: es₂) d = .error d') ∧
    process_cost_data cfg (es₁ ++ bad :: es₂) d = process_cost_data cfg (es₁ ++ [bad]) d := by
  induction es₁ generalizing d with
  | nil =>
    obtain ⟨d', hd'⟩ := process_entry_error_of_malformed cfg d bad hbad
    constructor
    · exact ⟨d', by simp only [List.nil_append, process_cost_data, hd']⟩
    · simp only [List.nil_append, process_cost_data, hd']
  | cons e es₁ ih =>
    simp only [List.cons_append, process_cost_data]
    cases he : process_entry cfg d e with
    | error d' => exact ⟨⟨d', rfl⟩, rfl⟩
    | ok d' => exact ih d'

theorem C2_malformed_record_aborts_witness :
    (∃ d', process_cost_data ⟨["a"], [], .name, .daily, false, false⟩
        [⟨some "2024-01-01", [⟨["EC2"], some 4⟩]⟩, ⟨none, []⟩, ⟨some "2024-01-02", [⟨["EC2"], some 6⟩]⟩] []
      = .error d') ∧
    process_cost_data ⟨["a"], [], .name, .daily, false, false⟩
        [⟨some "2024-01-01", [⟨["EC2"], some 4⟩]⟩, ⟨none, []⟩, ⟨some "2024-01-02", [⟨["EC2"], some 6⟩]⟩] []
      = process_cost_data ⟨["a"], [], .name, .daily, false, false⟩
        [⟨some "2024-01-01", [⟨["EC2"], some 4⟩]⟩, ⟨none, []⟩] [] :=
  C2_malformed_record_aborts ⟨["a"], [], .name, .daily, false, false⟩
    [⟨some "2024-01-01", [⟨["EC2"], some 4⟩]⟩] [⟨some "2024-01-02", [⟨["EC2"], some 6⟩]⟩]
    ⟨none, []⟩ [] (Or.inl rfl)

/-! ### Exclusion flags (support / taxes) -/

theorem process_groups_skip_excluded (cfg : Config) (pkey : String) (g : Group) (c : ℚ)
    (hc : g.amount = some c) (hex : excluded_service cfg (service_name_of g) = true) :
    ∀ (gs₁ gs₂ : List Group) (st : ProfileData × ℚ × ℚ),
      process_groups cfg pkey (gs₁ ++ g :: gs₂) st = process_groups cfg pkey (gs₁ ++ gs₂) st := by
  intro gs₁
  induction gs₁ with
  | nil =>
    intro gs₂ ⟨d, oc, pt⟩
    simp [process_groups, hc, hex]
  | cons g0 gs₁ ih =>
    intro gs₂ ⟨d, oc, pt⟩
    cases ha0 : g0.amount with
    | none => simp [process_groups, ha0]
    | some c0 =>
      simp only [List.cons_append, process_groups, ha0]
      split
      · exact ih gs₂ _
      · split
        · exact ih gs₂ _
        · exact ih gs₂ _

theorem process_entry_skip_excluded (cfg : Config) (g : Group) (c : ℚ)
    (hc : g.amount = some c) (hex : excluded_service cfg (service_name_of g) = true)
    (st? : Option String) (gs₁ gs₂ : List Group) (d : ProfileData) :
    process_entry cfg d ⟨st?, gs₁ ++ g :: gs₂⟩ = process_entry cfg d ⟨st?, gs₁ ++ gs₂⟩ := by
  cases st? with
  | none => rfl
  | some ps =>
    simp only [process_entry, process_groups_skip_excluded cfg (period_key cfg ps) g c hc hex]

/-- C7: with the corresponding exclusion flag enabled, a record for
"AWS Support (Business)" (caught by the `startswith("AWS Support")`
check) or for "Tax" is skipped before any accumulation, so the aggregated
table is exactly the one produced by the same stream without that record:
it contributes 0 to its own category cell, to "Other", and hence to every
period total and grand total derived from the table. -/
theorem C7_excluded_record_contributes_nothing (cfg : Config)
    (es₁ es₂ : List TimePeriodEntry) (st? : Option String) (gs₁ gs₂ : List Group)
    (g : Group) (c : ℚ) (d : ProfileData)
    (hc : g.amount = some c)
    (hex : (cfg.exclude_support = true ∧ service_name_of g = "AWS Support (Business)") ∨
           (cfg.exclude_taxes = true ∧ service_name_of g = "Tax")) :
    process_cost_data cfg (es₁ ++ ⟨st?, gs₁ ++ g :: gs₂⟩ :: es₂) d =
    process_cost_data cfg (es₁ ++ ⟨st?, gs₁ ++ gs₂⟩ :: es₂) d := by
  have hexcl : excluded_service cfg (service_name_of g) = true := by
    rcases hex with ⟨hflag, hname⟩ | ⟨hflag, hname⟩
    · simp [excluded_service, hname, hflag]; decide
    · simp [excluded_service, hname, hflag]
  induction es₁ generalizing d with
  | nil =>
    simp only [List.nil_append, process_cost_data,
      process_entry_skip_excluded cfg g c hc hexcl st? gs₁ gs₂ d]
  | cons e es₁ ih =>
    simp only [List.cons_append, process_cost_data]
    cases he : process_entry cfg d e with
    | error d' => rfl
    | ok d' => exact ih d'

theorem C7_excluded_record_contributes_nothing_witness :
    process_cost_data ⟨["a"], ["EC2"], .name, .daily, false, true⟩
        [⟨some "2024-01-01", [⟨["EC2"], some 1⟩, ⟨["AWS Support (Business)"], some 7⟩]⟩] [] =
    process_cost_data ⟨["a"], ["EC2"], .name, .daily, false, true⟩
        [⟨some "2024-01-01", [⟨["EC2"], some 1⟩]⟩] [] :=
  C7_excluded_record_contributes_nothing ⟨["a"], ["EC2"], .name, .daily, false, true⟩
    [] [] (some "2024-01-01") [⟨["EC2"], some 1⟩] [] ⟨["AWS Support (Business)"], some 7⟩ 7 []
    rfl (Or.inl ⟨rfl, rfl⟩)

/-! ### Total-row reconciliation -/

theorem dget_cons {α : Type} (a : String) (b : α) (rest : List (String × α)) (p : String) :
    dget ((a, b) :: rest) p = if a = p then some b else dget rest p := rfl

theorem dgetD_cons {α : Type} (a : String) (b : α) (rest : List (String × α)) (p : String) (v0 : α) :
    dgetD ((a, b) :: rest) p v0 = if a = p then b else dgetD rest p v0 := by
  rw [dgetD, dget_cons]
  by_cases h : a = p
  · rw [if_pos h, if_pos h]; rfl
  · rw [if_neg h, if_neg h]; rfl

theorem dgetD_addAmount (m : ServiceData) (q : String) (c : ℚ) (p : String) :
    dgetD (addAmount m q c) p 0 = dgetD m p 0 + (if q = p then c else 0) := by
  induction m with
  | nil =>
    rw [addAmount, dgetD_cons]
    by_cases h : q = p
    · rw [if_pos h, if_pos h]
      simp [dgetD, dget]
    · rw [if_neg h, if_neg h]
      simp [dgetD, dget]
  | cons kv rest ih =>
    obtain ⟨k, v⟩ := kv
    rw [addAmount]
    by_cases hkq : k = q
    · rw [if_pos hkq, dgetD_cons, dgetD_cons]
      by_cases hkp : k = p
      · have hqp : q = p := hkq.symm.trans hkp
        rw [if_pos hkp, if_pos hkp, if_pos hqp]
      · have hqp : ¬ q = p := fun h => hkp (hkq.trans h)
        rw [if_neg hkp, if_neg hkp, if_neg hqp]
        ring
    · rw [if_neg hkq, dgetD_cons, dgetD_cons]
      by_cases hkp : k = p
      · have hqp : ¬ q = p := fun h => hkq (hkp.trans h.symm)
        rw [if_pos hkp, if_pos hkp, if_neg hqp]
        ring
      · rw [if_neg hkp, if_neg hkp, ih]

theorem period_total_cell_cons (s' : String) (m : ServiceData) (rest : ProfileData) (p : String) :
    period_total_cell ((s', m) :: rest) p = dgetD m p 0 + period_total_cell rest p := by
  simp [period_total_cell]

theorem period_total_cell_addCost (pd : ProfileData) (s q : String) (c : ℚ) (p : String) :
    period_total_cell (addCost pd s q c) p = period_total_cell pd p + (if q = p then c else 0) := by
  induction pd with
  | nil =>
    by_cases h : q = p <;> simp [addCost, period_total_cell, dget, dgetD, h]
  | cons sm rest ih =>
    obtain ⟨s', m⟩ := sm
    by_cases hs : s' = s
    · rw [addCost, if_pos hs, period_total_cell_cons, period_total_cell_cons, dgetD_addAmount]
      ring
    · rw [addCost, if_neg hs, period_total_cell_cons, period_total_cell_cons, ih]
      ring

theorem process_groups_total (cfg : Config) (pkey : String)
    (hsup : cfg.exclude_support = false) (htax : cfg.exclude_taxes = false) :
    ∀ (gs : List Group) (d : ProfileData) (oc pt : ℚ),
      (∀ g ∈ gs, ∃ c, g.amount = some c ∧ 0 ≤ c) →
      ∃ d' oc' pt', process_groups cfg pkey gs (d, oc, pt) = .ok (d', oc', pt') ∧
        oc ≤ oc' ∧
        ∀ p, period_total_cell d' p + (if pkey = p then oc' else 0) =
          period_total_cell d p + (if pkey = p then oc else 0) +
            (if pkey = p then (gs.map group_amount).sum else 0) := by
  intro gs
  induction gs with
  | nil =>
    intro d oc pt _
    exact ⟨d, oc, pt, rfl, le_refl oc, fun p => by by_cases h : pkey = p <;> simp [h]⟩
  | cons g gs ih =>
    intro d oc pt hwf
    obtain ⟨c, hc, hc0⟩ := hwf g (List.mem_cons_self g gs)
    have hwf' : ∀ g' ∈ gs, ∃ c', g'.amount = some c' ∧ 0 ≤ c' :=
      fun g' hg' => hwf g' (List.mem_cons_of_mem g hg')
    have hgsum : ((g :: gs).map group_amount).sum = c + (gs.map group_amount).sum := by
      simp [group_amount, hc]
    simp only [process_groups, hc]
    have hexcl : excluded_service cfg (service_name_of g) = false := by
      simp [excluded_service, hsup, htax]
    rw [if_neg (by simp [hexcl])]
    by_cases hkeep : (show_all_services cfg || cfg.services.contains (service_name_of g)) = true
    · rw [if_pos hkeep]
      obtain ⟨d', oc', pt', heq, hole, htot⟩ := ih (addCost d (service_name_of g) pkey c) oc (pt + c) hwf'
      refine ⟨d', oc', pt', heq, hole, fun p => ?_⟩
      have hthis := htot p
      rw [period_total_cell_addCost] at hthis
      rw [hgsum]
      by_cases h : pkey = p
      · simp only [if_pos h] at hthis ⊢
        linarith
      · simp only [if_neg h] at hthis ⊢
        linarith
    · rw [if_neg hkeep]
      obtain ⟨d', oc', pt', heq, hole, htot⟩ := ih d (oc + c) (pt + c) hwf'
      refine ⟨d', oc', pt', heq, le_trans (by linarith) hole, fun p => ?_⟩
      have hthis := htot p
      rw [hgsum]
      by_cases h : pkey = p
      · simp only [if_pos h] at hthis ⊢
        linarith
      · simp only [if_neg h] at hthis ⊢
        linarith

theorem show_all_services_false (cfg : Config) (hne : cfg.services ≠ []) :
    show_all_services cfg = false := by
  simp only [show_all_services, beq_iff_eq, Nat.beq_eq_true_eq]
  simp [List.length_eq_zero, hne]

theorem process_entry_total (cfg : Config)
    (hne : cfg.services ≠ []) (hsup : cfg.exclude_support = false) (htax : cfg.exclude_taxes = false)
    (d : ProfileData) (e : TimePeriodEntry)
    (hwfe : ∃ ps, e.start? = some ps ∧ ∀ g ∈ e.groups, ∃ c, g.amount = some c ∧ 0 ≤ c) :
    ∃ d', process_entry cfg d e = .ok d' ∧
      ∀ p, period_total_cell d' p =
        period_total_cell d p +
          (if e.start?.map (period_key cfg) = some p then entry_sum e else 0) := by
  obtain ⟨ps, hps, hwfg⟩ := hwfe
  obtain ⟨d₁, oc', pt', heq, hole, htot⟩ :=
    process_groups_total cfg (period_key cfg ps) hsup htax e.groups d 0 0 hwfg
  by_cases hoc : oc' > 0
  · refine ⟨addCost d₁ "Other" (period_key cfg ps) oc', ?_, fun p => ?_⟩
    · simp only [process_entry, hps, heq, show_all_services_false cfg hne]
      rw [if_pos (by simp [hoc])]
    · have hthis := htot p
      rw [period_total_cell_addCost, hps]
      simp only [Option.map_some', Option.some.injEq, entry_sum]
      by_cases h : period_key cfg ps = p
      · simp only [if_pos h] at hthis ⊢
        linarith
      · simp only [if_neg h] at hthis ⊢
        linarith
  · have hoc0 : oc' = 0 := le_antisymm (not_lt.mp hoc) hole
    refine ⟨d₁, ?_, fun p => ?_⟩
    · simp only [process_entry, hps, heq]
      rw [if_neg (by simp [hoc0])]
    · have hthis := htot p
      rw [hps]
      simp only [Option.map_some', Option.some.injEq, entry_sum]
      by_cases h : period_key cfg ps = p
      · simp only [if_pos h, hoc0] at hthis
        simp only [if_pos h]
        linarith
      · simp only [if_neg h] at hthis
        simp only [if_neg h]
        linarith

theorem process_cost_data_total (cfg : Config)
    (hne : cfg.services ≠ []) (hsup : cfg.exclude_support = false) (htax : cfg.exclude_taxes = false) :
    ∀ (entries : List TimePeriodEntry) (d : ProfileData),
      (∀ e ∈ entries, ∃ ps, e.start? = some ps ∧ ∀ g ∈ e.groups, ∃ c, g.amount = some c ∧ 0 ≤ c) →
      ∃ dfin, process_cost_data cfg entries d = .ok dfin ∧
        ∀ p, period_total_cell dfin p = period_total_cell d p + raw_sum_at cfg entries p := by
  intro entries
  induction entries with
  | nil =>
    intro d _
    exact ⟨d, rfl, fun p => by simp [raw_sum_at]⟩
  | cons e es ih =>
    intro d hwf
    obtain ⟨d', he, htot⟩ :=
      process_entry_total cfg hne hsup htax d e (hwf e (List.mem_cons_self e es))
    obtain ⟨dfin, hes, htots⟩ := ih d' (fun e' he' => hwf e' (List.mem_cons_of_mem e he'))
    refine ⟨dfin, by simp only [process_cost_data, he, hes], fun p => ?_⟩
    rw [htots, htot]
    simp only [raw_sum_at, List.map_cons, List.sum_cons]
    ring

theorem sum_map_ite_of_not_mem (P : List String) (q : String) (s : ℚ) (hq : q ∉ P) :
    (P.map (fun p => if q = p then s else 0)).sum = 0 := by
  induction P with
  | nil => rfl
  | cons p P ih =>
    have hqp : ¬ q = p := fun h => hq (h ▸ List.mem_cons_self p P)
    simp only [List.map_cons, List.sum_cons, if_neg hqp, zero_add]
    exact ih (fun h => hq (List.mem_cons_of_mem p h))

theorem sum_map_ite_of_nodup (P : List String) (q : String) (s : ℚ)
    (hnd : P.Nodup) (hq : q ∈ P) :
    (P.map (fun p => if q = p then s else 0)).sum = s := by
  induction P with
  | nil => exact absurd hq (List.not_mem_nil q)
  | cons p P ih =>
    rcases List.mem_cons.mp hq with rfl | hmem
    · have hnin : q ∉ P := (List.nodup_cons.mp hnd).1
      simp only [List.map_cons, List.sum_cons, if_pos rfl, if_true]
      rw [sum_map_ite_of_not_mem P q s hnin]; ring
    · have hqp : ¬ q = p := fun h => (List.nodup_cons.mp hnd).1 (h ▸ hmem)
      simp only [List.map_cons, List.sum_cons, if_neg hqp, zero_add]
      exact ih (List.nodup_cons.mp hnd).2 hmem

theorem sum_map_add_distrib (P : List String) (f g : String → ℚ) :
    (P.map (fun p => f p + g p)).sum = (P.map f).sum + (P.map g).sum := by
  induction P with
  | nil => simp
  | cons p P ih => simp only [List.map_cons, List.sum_cons, ih]; ring

theorem grand_raw_sum (cfg : Config) (P : List String) (hnd : P.Nodup) :
    ∀ entries : List TimePeriodEntry,
      (∀ e ∈ entries, ∃ ps, e.start? = some ps ∧ period_key cfg ps ∈ P) →
      (P.map (raw_sum_at cfg entries)).sum = raw_sum entries := by
  intro entries
  induction entries with
  | nil =>
    intro _
    have hz : ∀ p ∈ P, raw_sum_at cfg [] p = (fun _ : String => (0 : ℚ)) p :=
      fun p _ => rfl
    rw [List.map_congr_left hz]
    simp [raw_sum]
  | cons e es ih =>
    intro hmem
    obtain ⟨ps, hps, hpsP⟩ := hmem e (List.mem_cons_self e es)
    have hes := ih (fun e' he' => hmem e' (List.mem_cons_of_mem e he'))
    have hsplit : ∀ p, raw_sum_at cfg (e :: es) p =
        (if period_key cfg ps = p then entry_sum e else 0) + raw_sum_at cfg es p := by
      intro p
      simp only [raw_sum_at, List.map_cons, List.sum_cons, hps, Option.map_some',
        Option.some.injEq]
    calc (P.map (raw_sum_at cfg (e :: es))).sum
        = (P.map (fun p => (if period_key cfg ps = p then entry_sum e else 0) +
            raw_sum_at cfg es p)).sum := by
          exact congrArg List.sum (List.map_congr_left (fun p _ => hsplit p))
      _ = entry_sum e + raw_sum es := by
          rw [sum_map_add_distrib, sum_map_ite_of_nodup P _ _ hnd hpsP, hes]
      _ = raw_sum (e :: es) := by simp [raw_sum]

/-- C1: with any non-empty allow-list and both exclusion flags off, for a
record set whose entries all parse, carry non-negative amounts, and fall
in the report window, aggregation succeeds and the per-account Total row
holds, in each period column, exactly the raw sum of all amounts of that
period, and in the trailing cell the raw sum over all periods.  The
right-hand sides never mention the allow-list, so the Total row is
independent of which categories it contains: everything not kept verbatim
is reconciled through the "Other" fold without double counting. -/
theorem C1_total_row_equals_raw_sums (cfg : Config) (entries : List TimePeriodEntry)
    (P : List String)
    (hne : cfg.services ≠ [])
    (hsup : cfg.exclude_support = false) (htax : cfg.exclude_taxes = false)
    (hwf : ∀ e ∈ entries, ∃ ps, e.start? = some ps ∧ ∀ g ∈ e.groups, ∃ c, g.amount = some c ∧ 0 ≤ c)
    (hP : ∀ e ∈ entries, ∀ ps, e.start? = some ps → period_key cfg ps ∈ P)
    (hnd : P.Nodup) :
    ∃ d, process_cost_data cfg entries [] = .ok d ∧
      (∀ p, period_total_cell d p = raw_sum_at cfg entries p) ∧
      grand_total_cell d P = raw_sum entries := by
  obtain ⟨d, hd, htot⟩ := process_cost_data_total cfg hne hsup htax entries [] hwf
  have hcell : ∀ p, period_total_cell d p = raw_sum_at cfg entries p := by
    intro p
    rw [htot p]
    simp [period_total_cell]
  refine ⟨d, hd, hcell, ?_⟩
  have hmem : ∀ e ∈ entries, ∃ ps, e.start? = some ps ∧ period_key cfg ps ∈ P := by
    intro e he
    obtain ⟨ps, hps, _⟩ := hwf e he
    exact ⟨ps, hps, hP e he ps hps⟩
  rw [grand_total_cell,
    congrArg List.sum (List.map_congr_left (fun p _ => hcell p)),
    grand_raw_sum cfg P hnd entries hmem]

theorem C1_total_row_equals_raw_sums_witness :
    ∃ d, process_cost_data ⟨["a"], ["EC2"], .name, .daily, false, false⟩
        [⟨some "2024-01-01", [⟨["EC2"], some 3⟩, ⟨["S3"], some 4⟩]⟩] [] = .ok d ∧
      (∀ p, period_total_cell d p =
        raw_sum_at ⟨["a"], ["EC2"], .name, .daily, false, false⟩
          [⟨some "2024-01-01", [⟨["EC2"], some 3⟩, ⟨["S3"], some 4⟩]⟩] p) ∧
      grand_total_cell d ["2024-01-01"] =
        raw_sum [⟨some "2024-01-01", [⟨["EC2"], some 3⟩, ⟨["S3"], some 4⟩]⟩] :=
  C1_total_row_equals_raw_sums ⟨["a"], ["EC2"], .name, .daily, false, false⟩
    [⟨some "2024-01-01", [⟨["EC2"], some 3⟩, ⟨["S3"], some 4⟩]⟩] ["2024-01-01"]
    (by decide) rfl rfl
    (by
      intro e he
      rw [List.mem_singleton] at he
      subst he
      refine ⟨"2024-01-01", rfl, ?_⟩
      intro g hg
      rcases List.mem_cons.mp hg with rfl | hg'
      · exact ⟨3, rfl, by norm_num⟩
      · rw [List.mem_singleton] at hg'
        subst hg'
        exact ⟨4, rfl, by norm_num⟩)
    (by
      intro e he ps hps
      rw [List.mem_singleton] at he
      subst he
      cases hps
      simp [period_key])
    (List.nodup_singleton _)

/-! ### Sort Policy -/

theorem orderedInsert_map_pair (k : String → ℚ) (a : String) (l : List String) :
    List.orderedInsert (fun x y : String × ℚ => y.2 ≤ x.2) (a, k a) (l.map (fun s => (s, k s))) =
      (List.orderedInsert (fun x y => k y ≤ k x) a l).map (fun s => (s, k s)) := by
  induction l with
  | nil => rfl
  | cons b bs ih =>
    simp only [List.map_cons, List.orderedInsert]
    by_cases h : k b ≤ k a
    · rw [if_pos h, if_pos h, List.map_cons, List.map_cons]
    · rw [if_neg h, if_neg h, List.map_cons, ih]

theorem insertionSort_map_pair (k : String → ℚ) (l : List String) :
    List.insertionSort (fun x y : String × ℚ => y.2 ≤ x.2) (l.map (fun s => (s, k s))) =
      (List.insertionSort (fun x y => k y ≤ k x) l).map (fun s => (s, k s)) := by
  induction l with
  | nil => rfl
  | cons a l ih =>
    simp only [List.map_cons, List.insertionSort, ih, orderedInsert_map_pair]

theorem sort_by_total_eq (k : String → ℚ) (l : List String) :
    (List.insertionSort (fun x y : String × ℚ => y.2 ≤ x.2) (l.map (fun s => (s, k s)))).map Prod.fst =
      List.insertionSort (fun x y => k y ≤ k x) l := by
  rw [insertionSort_map_pair, List.map_map]
  have hid : (Prod.fst ∘ fun s : String => (s, k s)) = id := rfl
  rw [hid, List.map_id]

theorem sort_services_total_eq (cfg : Config) (data : CostData) (periods : List String)
    (l : List String) (profile? : Option String) (h : cfg.sort_by = .total_cost) :
    sort_services_by_config cfg data periods l profile? =
      List.insertionSort (fun x y => service_total_for data periods cfg profile? y ≤
        service_total_for data periods cfg profile? x) l := by
  rw [sort_services_by_config, h]
  exact sort_by_total_eq _ l

theorem sort_profiles_total_eq (cfg : Config) (data : CostData) (periods : List String)
    (l : List String) (h : cfg.sort_by = .total_cost) :
    sort_profiles_by_config cfg data periods l =
      List.insertionSort (fun x y => profile_total_for data periods y ≤
        profile_total_for data periods x) l := by
  rw [sort_profiles_by_config, h]
  exact sort_by_total_eq _ l

theorem sorted_by_key_desc (k : String → ℚ) (l : List String) :
    List.Sorted (fun x y => k y ≤ k x) (List.insertionSort (fun x y => k y ≤ k x) l) := by
  haveI : IsTotal String (fun x y => k y ≤ k x) := ⟨fun a b => le_total (k b) (k a)⟩
  haveI : IsTrans String (fun x y => k y ≤ k x) := ⟨fun _ _ _ hab hbc => le_trans hbc hab⟩
  exact List.sorted_insertionSort _ l

theorem filter_orderedInsert_key (k : String → ℚ) (a : String) (l : List String) (t : ℚ) :
    (List.orderedInsert (fun x y => k y ≤ k x) a l).filter (fun x => decide (k x = t)) =
      if k a = t then a :: l.filter (fun x => decide (k x = t))
      else l.filter (fun x => decide (k x = t)) := by
  induction l with
  | nil =>
    by_cases h : k a = t
    · rw [if_pos h]
      simp [List.orderedInsert, List.filter, h]
    · rw [if_neg h]
      simp [List.orderedInsert, List.filter, h]
  | cons b bs ih =>
    simp only [List.orderedInsert]
    by_cases hab : k b ≤ k a
    · rw [if_pos hab]
      by_cases ha : k a = t
      · rw [if_pos ha]
        simp [List.filter_cons, ha]
      · rw [if_neg ha]
        simp [List.filter_cons, ha]
    · rw [if_neg hab]
      rw [List.filter_cons, List.filter_cons, ih]
      by_cases ha : k a = t
      · have hb : ¬ (k b = t) := fun hbe => hab (le_of_eq (hbe.trans ha.symm))
        simp [ha, hb]
      · simp [ha]

theorem filter_insertionSort_key (k : String → ℚ) (l : List String) (t : ℚ) :
    (List.insertionSort (fun x y => k y ≤ k x) l).filter (fun x => decide (k x = t)) =
      l.filter (fun x => decide (k x = t)) := by
  induction l with
  | nil => rfl
  | cons a l ih =>
    simp only [List.insertionSort, filter_orderedInsert_key, ih, List.filter_cons]
    by_cases h : k a = t
    · rw [if_pos h, if_pos (by simpa using h)]
    · rw [if_neg h, if_neg (by simpa using h)]

theorem mem_sort_services (cfg : Config) (data : CostData) (periods : List String)
    (l : List String) (profile? : Option String) (s : String) :
    s ∈ sort_services_by_config cfg data periods l profile? ↔ s ∈ l := by
  cases h : cfg.sort_by with
  | name =>
    rw [sort_services_by_config, h]
    exact (List.perm_insertionSort _ l).mem_iff
  | total_cost =>
    rw [sort_services_total_eq cfg data periods l profile? h]
    exact (List.perm_insertionSort _ l).mem_iff

theorem mem_sort_profiles (cfg : Config) (data : CostData) (periods : List String)
    (l : List String) (s : String) :
    s ∈ sort_profiles_by_config cfg data periods l ↔ s ∈ l := by
  cases h : cfg.sort_by with
  | name =>
    rw [sort_profiles_by_config, h]
    exact (List.perm_insertionSort _ l).mem_iff
  | total_cost =>
    rw [sort_profiles_total_eq cfg data periods l h]
    exact (List.perm_insertionSort _ l).mem_iff

/-- C6: the Sort Policy is correct on every input list of category or
account names.  Under policy `name` both sorters return a permutation of
the input in non-decreasing lexicographic order.  Under `total_cost` both
return a permutation in non-increasing order of the metric summed over all
periods (scoped to one account, or across all configured accounts, for
categories; over the account's own data for accounts), and the rows of any
given summed total keep their original relative input order (stable ties),
expressed as the filter at each total value being preserved. -/
theorem C6_sort_policy_correct (data : CostData) (periods : List String)
    (cfgN cfgT : Config) (l pl : List String) (profile? : Option String)
    (hN : cfgN.sort_by = .name) (hT : cfgT.sort_by = .total_cost) :
    ((sort_services_by_config cfgN data periods l profile?).Perm l ∧
      List.Sorted (· ≤ ·) (sort_services_by_config cfgN data periods l profile?)) ∧
    ((sort_profiles_by_config cfgN data periods pl).Perm pl ∧
      List.Sorted (· ≤ ·) (sort_profiles_by_config cfgN data periods pl)) ∧
    ((sort_services_by_config cfgT data periods l profile?).Perm l ∧
      List.Sorted (fun a b => service_total_for data periods cfgT profile? b ≤
        service_total_for data periods cfgT profile? a)
        (sort_services_by_config cfgT data periods l profile?) ∧
      ∀ t, (sort_services_by_config cfgT data periods l profile?).filter
          (fun s => decide (service_total_for data periods cfgT profile? s = t)) =
        l.filter (fun s => decide (service_total_for data periods cfgT profile? s = t))) ∧
    ((sort_profiles_by_config cfgT data periods pl).Perm pl ∧
      List.Sorted (fun a b => profile_total_for data periods b ≤ profile_total_for data periods a)
        (sort_profiles_by_config cfgT data periods pl) ∧
      ∀ t, (sort_profiles_by_config cfgT data periods pl).filter
          (fun s => decide (profile_total_for data periods s = t)) =
        pl.filter (fun s => decide (profile_total_for data periods s = t))) := by
  refine ⟨⟨?_, ?_⟩, ⟨?_, ?_⟩, ⟨?_, ?_, ?_⟩, ⟨?_, ?_, ?_⟩⟩
  · rw [sort_services_by_config, hN]
    exact List.perm_insertionSort _ l
  · rw [sort_services_by_config, hN]
    exact List.sorted_insertionSort _ l
  · rw [sort_profiles_by_config, hN]
    exact List.perm_insertionSort _ pl
  · rw [sort_profiles_by_config, hN]
    exact List.sorted_insertionSort _ pl
  · rw [sort_services_total_eq cfgT data periods l profile? hT]
    exact List.perm_insertionSort _ l
  · rw [sort_services_total_eq cfgT data periods l profile? hT]
    exact sorted_by_key_desc _ l
  · intro t
    rw [sort_services_total_eq cfgT data periods l profile? hT]
    exact filter_insertionSort_key _ l t
  · rw [sort_profiles_total_eq cfgT data periods pl hT]
    exact List.perm_insertionSort _ pl
  · rw [sort_profiles_total_eq cfgT data periods pl hT]
    exact sorted_by_key_desc _ pl
  · intro t
    rw [sort_profiles_total_eq cfgT data periods pl hT]
    exact filter_insertionSort_key _ pl t

theorem C6_sort_policy_correct_witness :
    ((sort_services_by_config ⟨["a"], [], .name, .daily, false, false⟩ [] [] ["S3", "EC2"] none).Perm
        ["S3", "EC2"] ∧
      List.Sorted (· ≤ ·)
        (sort_services_by_config ⟨["a"], [], .name, .daily, false, false⟩ [] [] ["S3", "EC2"] none)) ∧
    ((sort_profiles_by_config ⟨["a"], [], .name, .daily, false, false⟩ [] [] ["b", "a"]).Perm
        ["b", "a"] ∧
      List.Sorted (· ≤ ·)
        (sort_profiles_by_config ⟨["a"], [], .name, .daily, false, false⟩ [] [] ["b", "a"])) ∧
    ((sort_services_by_config ⟨["a"], [], .total_cost, .daily, false, false⟩ [] [] ["S3", "EC2"] none).Perm
        ["S3", "EC2"] ∧
      List.Sorted (fun a b =>
          service_total_for [] [] ⟨["a"], [], .total_cost, .daily, false, false⟩ none b ≤
          service_total_for [] [] ⟨["a"], [], .total_cost, .daily, false, false⟩ none a)
        (sort_services_by_config ⟨["a"], [], .total_cost, .daily, false, false⟩ [] [] ["S3", "EC2"] none) ∧
      ∀ t, (sort_services_by_config ⟨["a"], [], .total_cost, .daily, false, false⟩ [] [] ["S3", "EC2"] none).filter
          (fun s => decide (service_total_for [] [] ⟨["a"], [], .total_cost, .daily, false, false⟩ none s = t)) =
        ["S3", "EC2"].filter
          (fun s => decide (service_total_for [] [] ⟨["a"], [], .total_cost, .daily, false, false⟩ none s = t))) ∧
    ((sort_profiles_by_config ⟨["a"], [], .total_cost, .daily, false, false⟩ [] [] ["b", "a"]).Perm
        ["b", "a"] ∧
      List.Sorted (fun a b => profile_total_for [] [] b ≤ profile_total_for [] [] a)
        (sort_profiles_by_config ⟨["a"], [], .total_cost, .daily, false, false⟩ [] [] ["b", "a"]) ∧
      ∀ t, (sort_profiles_by_config ⟨["a"], [], .total_cost, .daily, false, false⟩ [] [] ["b", "a"]).filter
          (fun s => decide (profile_total_for [] [] s = t)) =
        ["b", "a"].filter (fun s => decide (profile_total_for [] [] s = t))) :=
  C6_sort_policy_correct [] [] ⟨["a"], [], .name, .daily, false, false⟩
    ⟨["a"], [], .total_cost, .daily, false, false⟩ ["S3", "EC2"] ["b", "a"] none rfl rfl

/-! ### Chart entity list vs table row list -/

theorem filter_insertionSort_le_comm (p : String → Bool) (l : List String) :
    (List.insertionSort (· ≤ ·) l).filter p = List.insertionSort (· ≤ ·) (l.filter p) := by
  have hperm : ((List.insertionSort (· ≤ ·) l).filter p).Perm
      (List.insertionSort (· ≤ ·) (l.filter p)) :=
    ((List.perm_insertionSort _ l).filter p).trans (List.perm_insertionSort _ (l.filter p)).symm
  have hs₁ : List.Sorted (· ≤ ·) ((List.insertionSort (· ≤ ·) l).filter p) :=
    (List.sorted_insertionSort _ l).filter p
  have hs₂ : List.Sorted (· ≤ ·) (List.insertionSort (· ≤ ·) (l.filter p)) :=
    List.sorted_insertionSort _ _
  exact List.eq_of_perm_of_sorted hperm hs₁ hs₂

/-- C4 (counterexample): with sort policy `total_cost` and two services
whose cost order disagrees with their name order, the service-total table
orders its rows by descending total while the service-total charts order
their datasets by name, so the two entity lists differ. -/
theorem C4_counterexample :
    service_total_chart_services ⟨["a"], [], .total_cost, .monthly, false, false⟩
        [("a", [("A", [("2024-01", 1)]), ("B", [("2024-01", 2)])])] ≠
      service_total_table_rows ⟨["a"], [], .total_cost, .monthly, false, false⟩
        [("a", [("A", [("2024-01", 1)]), ("B", [("2024-01", 2)])])] ["2024-01"] := by
  have hAB : ("A" : String) ≤ "B" := by
    rw [String.le_iff_toList_le]; decide
  have hsort : List.insertionSort (α := String) (· ≤ ·) ["A", "B"] = ["A", "B"] := by
    simp [List.insertionSort, List.orderedInsert, hAB]
  have hchart : service_total_chart_services ⟨["a"], [], .total_cost, .monthly, false, false⟩
      [("a", [("A", [("2024-01", 1)]), ("B", [("2024-01", 2)])])] = ["A", "B"] := by
    show (List.insertionSort (· ≤ ·)
        (all_services_global ⟨["a"], [], .total_cost, .monthly, false, false⟩
          [("a", [("A", [("2024-01", 1)]), ("B", [("2024-01", 2)])])])).filter
        (should_include_service ⟨["a"], [], .total_cost, .monthly, false, false⟩) ++
      other_row ⟨["a"], [], .total_cost, .monthly, false, false⟩
        (all_services_global ⟨["a"], [], .total_cost, .monthly, false, false⟩
          [("a", [("A", [("2024-01", 1)]), ("B", [("2024-01", 2)])])]) = ["A", "B"]
    rw [show all_services_global ⟨["a"], [], .total_cost, .monthly, false, false⟩
        [("a", [("A", [("2024-01", 1)]), ("B", [("2024-01", 2)])])] = ["A", "B"] by decide]
    rw [hsort]
    decide
  have hA : service_total_for [("a", [("A", [("2024-01", 1)]), ("B", [("2024-01", 2)])])]
      ["2024-01"] ⟨["a"], [], .total_cost, .monthly, false, false⟩ none "A" = 1 := by
    simp [service_total_for, service_period_cost, dgetD, dget]
  have hB : service_total_for [("a", [("A", [("2024-01", 1)]), ("B", [("2024-01", 2)])])]
      ["2024-01"] ⟨["a"], [], .total_cost, .monthly, false, false⟩ none "B" = 2 := by
    simp [service_total_for, service_period_cost, dgetD, dget]
  have hsorted : sort_services_by_config ⟨["a"], [], .total_cost, .monthly, false, false⟩
      [("a", [("A", [("2024-01", 1)]), ("B", [("2024-01", 2)])])] ["2024-01"] ["A", "B"] none =
      ["B", "A"] := by
    rw [sort_services_total_eq _ _ _ _ _ rfl]
    norm_num [List.insertionSort, List.orderedInsert, hA, hB]
  have htable : service_total_table_rows ⟨["a"], [], .total_cost, .monthly, false, false⟩
      [("a", [("A", [("2024-01", 1)]), ("B", [("2024-01", 2)])])] ["2024-01"] = ["B", "A"] := by
    show sort_services_by_config ⟨["a"], [], .total_cost, .monthly, false, false⟩
        [("a", [("A", [("2024-01", 1)]), ("B", [("2024-01", 2)])])] ["2024-01"]
        ((all_services_global ⟨["a"], [], .total_cost, .monthly, false, false⟩
          [("a", [("A", [("2024-01", 1)]), ("B", [("2024-01", 2)])])]).filter
          (should_include_service ⟨["a"], [], .total_cost, .monthly, false, false⟩)) none ++
      other_row ⟨["a"], [], .total_cost, .monthly, false, false⟩
        (all_services_global ⟨["a"], [], .total_cost, .monthly, false, false⟩
          [("a", [("A", [("2024-01", 1)]), ("B", [("2024-01", 2)])])]) = ["B", "A"]
    rw [show all_services_global ⟨["a"], [], .total_cost, .monthly, false, false⟩
        [("a", [("A", [("2024-01", 1)]), ("B", [("2024-01", 2)])])] = ["A", "B"] by decide]
    rw [show (["A", "B"].filter
        (should_include_service ⟨["a"], [], .total_cost, .monthly, false, false⟩)) = ["A", "B"]
      by decide]
    rw [hsorted]
    decide
  rw [hchart, htable]
  decide

/-- C4 (amended): the chart entity list of the service-total charts always
orders the filtered services by name; it therefore coincides with the
table's Sort-Policy-ordered row list exactly for configurations whose sort
policy is `name` (for any aggregated data), while under `total_value` the
two lists differ whenever descending-total order disagrees with name
order. -/
theorem C4_chart_list_matches_table_under_name_sort (cfg : Config) (data : CostData)
    (periods : List String) (h : cfg.sort_by = .name) :
    service_total_chart_services cfg data = service_total_table_rows cfg data periods := by
  rw [service_total_chart_services, service_total_table_rows, sort_services_by_config, h,
    filter_insertionSort_le_comm]

theorem C4_chart_list_matches_table_under_name_sort_witness :
    service_total_chart_services ⟨["a"], [], .name, .monthly, false, false⟩
        [("a", [("A", [("2024-01", 1)]), ("B", [("2024-01", 2)])])] =
      service_total_table_rows ⟨["a"], [], .name, .monthly, false, false⟩
        [("a", [("A", [("2024-01", 1)]), ("B", [("2024-01", 2)])])] ["2024-01"] :=
  C4_chart_list_matches_table_under_name_sort ⟨["a"], [], .name, .monthly, false, false⟩
    [("a", [("A", [("2024-01", 1)]), ("B", [("2024-01", 2)])])] ["2024-01"] rfl

/-! ### Empty allow-list and the "Other" bucket -/

theorem mem_dkeys_addCost (d : ProfileData) (s p : String) (c : ℚ) (x : String) :
    x ∈ dkeys (addCost d s p c) → x ∈ dkeys d ∨ x = s := by
  induction d with
  | nil =>
    intro hx
    exact Or.inr (by simpa [addCost, dkeys] using hx)
  | cons sm rest ih =>
    obtain ⟨s', m⟩ := sm
    by_cases hs : s' = s
    · intro hx
      rw [addCost, if_pos hs] at hx
      rcases (by simpa [dkeys] using hx : x = s' ∨ x ∈ dkeys rest) with h | h
      · exact Or.inl (by simp [dkeys, h])
      · exact Or.inl (by simp [dkeys]; exact Or.inr (by simpa [dkeys] using h))
    · intro hx
      rw [addCost, if_neg hs] at hx
      rcases (by simpa [dkeys] using hx : x = s' ∨ x ∈ dkeys (addCost rest s p c)) with h | h
      · exact Or.inl (by simp [dkeys, h])
      · rcases ih (by simpa [dkeys] using h) with h' | h'
        · exact Or.inl (by simp [dkeys]; exact Or.inr (by simpa [dkeys] using h'))
        · exact Or.inr h'

theorem process_groups_ok_no_other (cfg : Config) (pkey : String)
    (hshow : show_all_services cfg = true) :
    ∀ (gs : List Group) (d : ProfileData) (oc pt : ℚ) (d' : ProfileData) (oc' pt' : ℚ),
      (∀ g ∈ gs, service_name_of g ≠ "Other") → "Other" ∉ dkeys d →
      process_groups cfg pkey gs (d, oc, pt) = .ok (d', oc', pt') → "Other" ∉ dkeys d' := by
  intro gs
  induction gs with
  | nil =>
    intro d oc pt d' oc' pt' _ hd heq
    cases heq
    exact fun h => by exact absurd h (by assumption)
  | cons g gs ih =>
    intro d oc pt d' oc' pt' hnames hd heq
    have hnames' : ∀ g' ∈ gs, service_name_of g' ≠ "Other" :=
      fun g' hg' => hnames g' (List.mem_cons_of_mem g hg')
    cases ha : g.amount with
    | none => rw [process_groups, ha] at heq; cases heq
    | some c =>
      rw [process_groups, ha] at heq
      simp only at heq
      split at heq
      · exact ih d oc pt d' oc' pt' hnames' hd heq
      · rw [if_pos (by rw [hshow]; simp)] at heq
        refine ih _ oc (pt + c) d' oc' pt' hnames' ?_ heq
        intro hmem
        rcases mem_dkeys_addCost d (service_name_of g) pkey c "Other" hmem with h | h
        · exact hd h
        · exact hnames g (List.mem_cons_self g gs) h.symm

theorem process_entry_ok_no_other (cfg : Config) (hshow : show_all_services cfg = true)
    (d : ProfileData) (e : TimePeriodEntry) (d' : ProfileData)
    (hnames : ∀ g ∈ e.groups, service_name_of g ≠ "Other") (hd : "Other" ∉ dkeys d)
    (heq : process_entry cfg d e = .ok d') : "Other" ∉ dkeys d' := by
  cases hs : e.start? with
  | none => rw [process_entry, hs] at heq; cases heq
  | some ps =>
    rw [process_entry, hs] at heq
    simp only at heq
    cases hg : process_groups cfg (period_key cfg ps) e.groups (d, 0, 0) with
    | error d₁ => rw [hg] at heq; cases heq
    | ok st =>
      obtain ⟨d₁, oc₁, pt₁⟩ := st
      rw [hg] at heq
      simp only at heq
      rw [if_neg (by rw [hshow]; simp)] at heq
      have hdd : d₁ = d' := by injection heq
      subst hdd
      exact process_groups_ok_no_other cfg (period_key cfg ps) hshow e.groups d 0 0 d₁ oc₁ pt₁
        hnames hd hg

theorem process_cost_data_ok_no_other (cfg : Config) (hshow : show_all_services cfg = true) :
    ∀ (entries : List TimePeriodEntry) (d : ProfileData) (dfin : ProfileData),
      (∀ e ∈ entries, ∀ g ∈ e.groups, service_name_of g ≠ "Other") → "Other" ∉ dkeys d →
      process_cost_data cfg entries d = .ok dfin → "Other" ∉ dkeys dfin := by
  intro entries
  induction entries with
  | nil =>
    intro d dfin _ hd heq
    cases heq
    assumption
  | cons e es ih =>
    intro d dfin hnames hd heq
    rw [process_cost_data] at heq
    cases he : process_entry cfg d e with
    | error d₁ => rw [he] at heq; cases heq
    | ok d₁ =>
      rw [he] at heq
      simp only at heq
      exact ih d₁ dfin (fun e' he' => hnames e' (List.mem_cons_of_mem e he'))
        (process_entry_ok_no_other cfg hshow d e d₁
          (hnames e (List.mem_cons_self e es)) hd he) heq

/-- C5: with an empty allow-list, the row filter rejects "Other", no row
list of any of the three output tables contains "Other" (for the
account-totals table provided no configured account is itself named
"Other"), and the aggregator never creates the synthetic "Other" bucket:
an "Other" key can only exist in the table if some raw record carried that
very category name verbatim. -/
theorem C5_no_other_with_empty_allow_list (cfg : Config) (hempty : cfg.services = []) :
    should_include_service cfg "Other" = false ∧
    (∀ (entries : List TimePeriodEntry) (dfin : ProfileData),
      (∀ e ∈ entries, ∀ g ∈ e.groups, service_name_of g ≠ "Other") →
      process_cost_data cfg entries [] = .ok dfin → "Other" ∉ dkeys dfin) ∧
    (∀ (data : CostData) (periods : List String) (profile : String),
      "Other" ∉ service_table_rows_for_profile cfg data periods profile) ∧
    (∀ (data : CostData) (periods : List String),
      "Other" ∉ service_total_table_rows cfg data periods) ∧
    (∀ (data : CostData) (periods : List String), "Other" ∉ cfg.profiles →
      "Other" ∉ account_total_table_rows cfg data periods) := by
  have hshow : show_all_services cfg = true := by
    simp [show_all_services, hempty]
  have hinc : should_include_service cfg "Other" = false := by
    simp [should_include_service, hempty]
  refine ⟨hinc, ?_, ?_, ?_, ?_⟩
  · intro entries dfin hnames heq
    exact process_cost_data_ok_no_other cfg hshow entries [] dfin hnames (by simp [dkeys]) heq
  · intro data periods profile hmem
    rcases List.mem_append.mp hmem with h | h
    · have h' := (mem_sort_services cfg data periods _ (some profile) "Other").mp h
      have := List.of_mem_filter h'
      rw [hinc] at this
      cases this
    · rw [other_row] at h
      rw [if_neg (by simp [hempty])] at h
      exact absurd h (List.not_mem_nil _)
  · intro data periods hmem
    rcases List.mem_append.mp hmem with h | h
    · have h' := (mem_sort_services cfg data periods _ none "Other").mp h
      have := List.of_mem_filter h'
      rw [hinc] at this
      cases this
    · rw [other_row] at h
      rw [if_neg (by simp [hempty])] at h
      exact absurd h (List.not_mem_nil _)
  · intro data periods hprof hmem
    exact hprof ((mem_sort_profiles cfg data periods cfg.profiles "Other").mp hmem)

theorem C5_no_other_with_empty_allow_list_witness :
    should_include_service ⟨["a"], [], .name, .daily, false, false⟩ "Other" = false ∧
    (∀ (entries : List TimePeriodEntry) (dfin : ProfileData),
      (∀ e ∈ entries, ∀ g ∈ e.groups, service_name_of g ≠ "Other") →
      process_cost_data ⟨["a"], [], .name, .daily, false, false⟩ entries [] = .ok dfin →
      "Other" ∉ dkeys dfin) ∧
    (∀ (data : CostData) (periods : List String) (profile : String),
      "Other" ∉ service_table_rows_for_profile ⟨["a"], [], .name, .daily, false, false⟩ data periods profile) ∧
    (∀ (data : CostData) (periods : List String),
      "Other" ∉ service_total_table_rows ⟨["a"], [], .name, .daily, false, false⟩ data periods) ∧
    (∀ (data : CostData) (periods : List String),
      "Other" ∉ (⟨["a"], [], .name, .daily, false, false⟩ : Config).profiles →
      "Other" ∉ account_total_table_rows ⟨["a"], [], .name, .daily, false, false⟩ data periods) :=
  C5_no_other_with_empty_allow_list ⟨["a"], [], .name, .daily, false, false⟩ rfl

/-! ### Security Hub: global summary vs detailed findings -/

namespace SecurityHub

theorem sum_map_update (L : List String) (f g : String → Nat) (a : String)
    (hnd : L.Nodup) (hmem : a ∈ L)
    (hother : ∀ x, x ≠ a → g x = f x) (ha : g a = f a + 1) :
    (L.map g).sum = (L.map f).sum + 1 := by
  induction L with
  | nil => exact absurd hmem (List.not_mem_nil a)
  | cons x xs ih =>
    rcases List.mem_cons.mp hmem with rfl | hmem'
    · have hxs : xs.map g = xs.map f := by
        refine List.map_congr_left (fun y hy => hother y ?_)
        intro hya
        exact (List.nodup_cons.mp hnd).1 (hya ▸ hy)
      simp only [List.map_cons, List.sum_cons, ha, hxs]
      omega
    · have hx : g x = f x := by
        refine hother x ?_
        intro hxa
        exact (List.nodup_cons.mp hnd).1 (hxa ▸ hmem')
      simp only [List.map_cons, List.sum_cons, hx,
        ih (List.nodup_cons.mp hnd).2 hmem']
      omega

theorem sum_map_congr_fn (L : List String) (f g : String → Nat) (h : ∀ x ∈ L, g x = f x) :
    (L.map g).sum = (L.map f).sum := by
  rw [List.map_congr_left h]

theorem sum_counts_bump (profiles regions : List String)
    (counts : String → String → Option String → Nat) (p r : String) (sev : String)
    (hp : p ∈ profiles) (hpn : profiles.Nodup) (hr : r ∈ regions) (hrn : regions.Nodup)
    (hs : sev ∈ severity_order) :
    sum_counts profiles regions (bump counts p r (some sev)) =
      sum_counts profiles regions counts + 1 := by
  have hsn : severity_order.Nodup := by decide
  rw [sum_counts, sum_counts]
  refine sum_map_update severity_order _ _ sev hsn hs ?_ ?_
  · intro s hsne
    refine sum_map_congr_fn profiles _ _ (fun p' _ => ?_)
    refine sum_map_congr_fn regions _ _ (fun r' _ => ?_)
    simp only [bump]
    rw [if_neg]
    rintro ⟨-, -, hss⟩
    exact hsne (by injection hss)
  · refine sum_map_update profiles _ _ p hpn hp ?_ ?_
    · intro p' hpne
      refine sum_map_congr_fn regions _ _ (fun r' _ => ?_)
      simp only [bump]
      rw [if_neg]
      rintro ⟨hpp, -, -⟩
      exact hpne hpp
    · refine sum_map_update regions _ _ r hrn hr ?_ ?_
      · intro r' hrne
        simp only [bump]
        rw [if_neg]
        rintro ⟨-, hrr, -⟩
        exact hrne hrr
      · simp [bump]

theorem sum_counts_extend_region (profiles regions : List String)
    (counts : String → String → Option String → Nat) (r : String)
    (hzero : ∀ p s, counts p r s = 0) :
    sum_counts profiles (regions ++ [r]) counts = sum_counts profiles regions counts := by
  rw [sum_counts, sum_counts]
  refine sum_map_congr_fn severity_order _ _ (fun sev _ => ?_)
  refine sum_map_congr_fn profiles _ _ (fun p _ => ?_)
  rw [List.map_append, List.sum_append]
  simp [hzero]

theorem process_finding_inv (profiles : List String) (hpn : profiles.Nodup)
    (p : String) (hp : p ∈ profiles) (st : DashboardState) (f : Finding)
    (hwf : finding_wf f) (hinv : dash_inv profiles st) :
    ∃ st', process_finding p st f = .ok st' ∧ dash_inv profiles st' := by
  obtain ⟨⟨s, hs, hsmem⟩, hreg, hid⟩ := hwf
  obtain ⟨hrn, houtside, hbal⟩ := hinv
  by_cases hinfo : f.severityLabel = some "INFORMATIONAL"
  · exact ⟨st, by rw [process_finding, if_pos hinfo], hrn, houtside, hbal⟩
  · have hsev : s ∈ severity_order := by
      rcases List.mem_append.mp hsmem with h | h
      · exact h
      · exfalso
        apply hinfo
        rw [hs]
        simpa using h
    obtain ⟨region, hregion⟩ := Option.isSome_iff_exists.mp hreg
    obtain ⟨rawId, hrawId⟩ := Option.isSome_iff_exists.mp hid
    set regions' := if region ∈ st.regions then st.regions else st.regions ++ [region] with hregions'
    have hrn' : regions'.Nodup := by
      rw [hregions']
      split
      · exact hrn
      · next hnot =>
        rw [List.nodup_append]
        exact ⟨hrn, List.nodup_singleton region, by simpa using hnot⟩
    have hrmem : region ∈ regions' := by
      rw [hregions']
      split
      · assumption
      · simp
    have hsum' : sum_counts profiles regions' st.findings_data =
        st.detailed_findings.length := by
      rw [hregions']
      split
      · exact hbal
      · next hnot =>
        rw [sum_counts_extend_region profiles st.regions st.findings_data region
          (fun p' s' => houtside p' region s' hnot)]
        exact hbal
    have houtside' : ∀ p' r' s', r' ∉ regions' → st.findings_data p' r' s' = 0 := by
      intro p' r' s' hr'
      refine houtside p' r' s' (fun hmem => hr' ?_)
      rw [hregions']
      split
      · exact hmem
      · exact List.mem_append_left _ hmem
    refine ⟨{ findings_data := bump st.findings_data p region f.severityLabel,
              detailed_findings := st.detailed_findings ++
                [{ account := p, region := region,
                   title := (f.title?).getD "N/A", severity := f.severityLabel,
                   workflow_state := f.workflowState,
                   product_name := (f.productName).getD "N/A",
                   id := ((rawId.splitOn "/").getLastD "") }],
              regions := regions' }, ?_, ?_, ?_, ?_⟩
    · rw [process_finding, if_neg hinfo, hregion]
      simp only [hrawId]
    · exact hrn'
    · intro p' r' s' hr'
      simp only [bump]
      rw [if_neg]
      · exact houtside' p' r' s' hr'
      · rintro ⟨-, hrr, -⟩
        exact hr' (hrr ▸ hrmem)
    · rw [hs]
      rw [sum_counts_bump profiles regions' st.findings_data p region s hp hpn hrmem hrn' hsev]
      rw [hsum']
      simp

theorem process_findings_data_inv (profiles : List String) (hpn : profiles.Nodup)
    (p : String) (hp : p ∈ profiles) :
    ∀ (fs : List Finding) (st : DashboardState),
      (∀ f ∈ fs, finding_wf f) → dash_inv profiles st →
      ∃ st', process_findings_data p fs st = .ok st' ∧ dash_inv profiles st' := by
  intro fs
  induction fs with
  | nil => exact fun st _ hinv => ⟨st, rfl, hinv⟩
  | cons f fs ih =>
    intro st hwf hinv
    obtain ⟨st₁, heq₁, hinv₁⟩ :=
      process_finding_inv profiles hpn p hp st f (hwf f (List.mem_cons_self f fs)) hinv
    obtain ⟨st', heq', hinv'⟩ :=
      ih st₁ (fun f' hf' => hwf f' (List.mem_cons_of_mem f hf')) hinv₁
    exact ⟨st', by rw [process_findings_data, heq₁]; exact heq', hinv'⟩

theorem run_dashboard_inv (profiles : List String) (hpn : profiles.Nodup)
    (fetch : String → List Finding) :
    ∀ (ps : List String) (st : DashboardState),
      (∀ q ∈ ps, q ∈ profiles) → (∀ q ∈ ps, ∀ f ∈ fetch q, finding_wf f) →
      dash_inv profiles st →
      ∃ st', run_dashboard fetch ps st = .ok st' ∧ dash_inv profiles st' := by
  intro ps
  induction ps with
  | nil => exact fun st _ _ hinv => ⟨st, rfl, hinv⟩
  | cons q ps ih =>
    intro st hq hwf hinv
    obtain ⟨st₁, heq₁, hinv₁⟩ :=
      process_findings_data_inv profiles hpn q (hq q (List.mem_cons_self q ps)) (fetch q) st
        (hwf q (List.mem_cons_self q ps)) hinv
    obtain ⟨st', heq', hinv'⟩ :=
      ih st₁ (fun q' hq' => hq q' (List.mem_cons_of_mem q hq'))
        (fun q' hq' => hwf q' (List.mem_cons_of_mem q hq')) hinv₁
    exact ⟨st', by rw [run_dashboard, heq₁]; exact heq', hinv'⟩

end SecurityHub

/-- C10: over distinct configured profiles and well-formed findings (every
severity label among CRITICAL/HIGH/MEDIUM/LOW/INFORMATIONAL, region and id
present), the run succeeds and the grand-total cell of the Global Security
Hub Summary table equals the number of rows of the detailed findings
table: every non-INFORMATIONAL finding is counted exactly once in both
views, and INFORMATIONAL findings appear in neither. -/
theorem C10_global_summary_matches_detailed_rows (profiles : List String)
    (fetch : String → List SecurityHub.Finding)
    (hpn : profiles.Nodup)
    (hwf : ∀ p ∈ profiles, ∀ f ∈ fetch p, SecurityHub.finding_wf f) :
    ∃ st, SecurityHub.run_dashboard fetch profiles SecurityHub.init_state = .ok st ∧
      SecurityHub.global_summary_grand_total profiles st = st.detailed_findings.length := by
  have hinv0 : SecurityHub.dash_inv profiles SecurityHub.init_state := by
    refine ⟨List.nodup_nil, fun _ _ _ _ => rfl, ?_⟩
    simp [SecurityHub.sum_counts, SecurityHub.init_state]
  obtain ⟨st, heq, _, _, hbal⟩ :=
    SecurityHub.run_dashboard_inv profiles hpn fetch profiles SecurityHub.init_state
      (fun q hq => hq) hwf hinv0
  exact ⟨st, heq, hbal⟩

theorem C10_global_summary_matches_detailed_rows_witness :
    ∃ st, SecurityHub.run_dashboard
        (fun _ => [⟨some "HIGH", some "eu-west-1", some "arn:x/f1", some "t", some "NEW", some "Inspector"⟩,
                   ⟨some "INFORMATIONAL", some "eu-west-1", some "arn:x/f2", some "t2", some "NEW", some "Inspector"⟩])
        ["acct1"] SecurityHub.init_state = .ok st ∧
      SecurityHub.global_summary_grand_total ["acct1"] st = st.detailed_findings.length :=
  C10_global_summary_matches_detailed_rows ["acct1"]
    (fun _ => [⟨some "HIGH", some "eu-west-1", some "arn:x/f1", some "t", some "NEW", some "Inspector"⟩,
               ⟨some "INFORMATIONAL", some "eu-west-1", some "arn:x/f2", some "t2", some "NEW", some "Inspector"⟩])
    (List.nodup_singleton _)
    (by
      intro p hp f hf
      rcases List.mem_cons.mp hf with rfl | hf'
      · exact ⟨⟨"HIGH", rfl, by decide⟩, rfl, rfl⟩
      · rw [List.mem_singleton] at hf'
        subst hf'
        exact ⟨⟨"INFORMATIONAL", rfl, by decide⟩, rfl, rfl⟩)

end AwsSample
